import Mathlib

/-!
Shallow embedding of the DuckyScript compiler (compiler.py).

The compiler maps a line-oriented script to a flat byte payload where every
logical instruction is 2 bytes.  Strings are modelled as `List Char`; Python
string helpers (strip, split, upper, lower, int, substring membership) are
embedded as explicit functions with Python semantics.  Diagnostics printed by
the Python code are modelled as a `List Diag` threaded through every function
that prints.
-/

/-- Python `str.isspace` characters relevant to `str.strip` / `str.split`. -/
def isPyWS (c : Char) : Bool :=
  c = ' ' || c = '\t' || c = '\n' || c = '\r' || c = '\x0b' || c = '\x0c'

/-- Python `line.strip()`. -/
def pyStrip (s : List Char) : List Char :=
  ((s.dropWhile isPyWS).reverse.dropWhile isPyWS).reverse

/-- Python `s.startswith(pre)`; cases on the prefix first so that it
reduces as soon as the literal prefix is consumed or mismatched. -/
def pyStarts : List Char → List Char → Bool
  | [], _ => true
  | c :: cs, s =>
    match s with
    | [] => false
    | d :: ds => c == d && pyStarts cs ds

/-- Helper for `pySplit`: accumulates the current (reversed) token. -/
def pySplitAux : List Char → List Char → List (List Char)
  | [], acc => if acc = [] then [] else [acc.reverse]
  | c :: rest, acc =>
    if isPyWS c then
      if acc = [] then pySplitAux rest []
      else acc.reverse :: pySplitAux rest []
    else pySplitAux rest (c :: acc)

/-- Python `line.split()`: split on whitespace runs, dropping empty tokens. -/
def pySplit (s : List Char) : List (List Char) := pySplitAux s []

/-- Python `s.upper()` (ASCII). -/
def pyUpper (s : List Char) : List Char := s.map Char.toUpper

/-- Python `s.lower()` (ASCII). -/
def pyLower (s : List Char) : List Char := s.map Char.toLower

/-- Python `sub in s` for strings: substring containment. -/
def pySubstr (sub s : List Char) : Bool :=
  (List.range (s.length + 1)).any (fun i => pyStarts sub (s.drop i))

/-- Valid digit-group for Python `int()`: digits with single underscores
strictly between digits. -/
def digitsOK : List Char → Bool
  | [] => false
  | [c] => c.isDigit
  | c :: d :: rest =>
    c.isDigit && (if d = '_' then digitsOK rest else digitsOK (d :: rest))

/-- Numeric value of a digit group, ignoring the underscores. -/
def digitsVal (s : List Char) : Nat :=
  s.foldl (fun a c => if c = '_' then a else a * 10 + (c.toNat - 48)) 0

/-- Python `int(s)`: strips whitespace, optional sign, base-10 digits with
underscores between digits; `none` models the `ValueError`. -/
def pyInt (s : List Char) : Option Int :=
  match pyStrip s with
  | [] => none
  | c :: rest =>
    if c = '-' then
      if digitsOK rest then some (-(digitsVal rest : Int)) else none
    else if c = '+' then
      if digitsOK rest then some ((digitsVal rest : Int)) else none
    else
      if digitsOK (c :: rest) then some ((digitsVal (c :: rest) : Int)) else none

/-- Dictionary lookup (`k in d` / `d[k]`) over an association list. -/
def assoc (k : List Char) : List (List Char × Nat) → Option Nat
  | [] => none
  | p :: rest => if k = p.1 then some p.2 else assoc k rest

/-- HID keycodes for unshifted printable characters (KEYCODES). -/
def KEYCODES : List (List Char × Nat) :=
  [(['a'], 0x04), (['b'], 0x05), (['c'], 0x06), (['d'], 0x07), (['e'], 0x08),
   (['f'], 0x09), (['g'], 0x0a), (['h'], 0x0b), (['i'], 0x0c), (['j'], 0x0d),
   (['k'], 0x0e), (['l'], 0x0f), (['m'], 0x10), (['n'], 0x11), (['o'], 0x12),
   (['p'], 0x13), (['q'], 0x14), (['r'], 0x15), (['s'], 0x16), (['t'], 0x17),
   (['u'], 0x18), (['v'], 0x19), (['w'], 0x1a), (['x'], 0x1b), (['y'], 0x1c),
   (['z'], 0x1d),
   (['1'], 0x1e), (['2'], 0x1f), (['3'], 0x20), (['4'], 0x21), (['5'], 0x22),
   (['6'], 0x23), (['7'], 0x24), (['8'], 0x25), (['9'], 0x26), (['0'], 0x27),
   ([','], 0x36), (['.'], 0x37), (['/'], 0x38), ([';'], 0x33), (['\x27'], 0x34),
   (['['], 0x2f), ([']'], 0x30), (['\\'], 0x31), (['-'], 0x2d), (['='], 0x2e),
   (['\x60'], 0x35), ([' '], 0x2c)]

/-- HID keycodes for shifted characters (SHIFT_CHARS). -/
def SHIFT_CHARS : List (List Char × Nat) :=
  [(['A'], 0x04), (['B'], 0x05), (['C'], 0x06), (['D'], 0x07), (['E'], 0x08),
   (['F'], 0x09), (['G'], 0x0a), (['H'], 0x0b), (['I'], 0x0c), (['J'], 0x0d),
   (['K'], 0x0e), (['L'], 0x0f), (['M'], 0x10), (['N'], 0x11), (['O'], 0x12),
   (['P'], 0x13), (['Q'], 0x14), (['R'], 0x15), (['S'], 0x16), (['T'], 0x17),
   (['U'], 0x18), (['V'], 0x19), (['W'], 0x1a), (['X'], 0x1b), (['Y'], 0x1c),
   (['Z'], 0x1d),
   (['!'], 0x1e), (['@'], 0x1f), (['#'], 0x20), (['$'], 0x21), (['%'], 0x22),
   (['^'], 0x23), (['&'], 0x24), (['*'], 0x25), (['('], 0x26), ([')'], 0x27),
   (['<'], 0x36), (['>'], 0x37), (['?'], 0x38), ([':'], 0x33), (['\x22'], 0x34),
   (['\x7b'], 0x2f), (['\x7d'], 0x30), (['|'], 0x31), (['_'], 0x2d), (['+'], 0x2e),
   (['~'], 0x35)]

/-- HID keycodes for named special keys (SPECIAL_KEYS). -/
def SPECIAL_KEYS : List (List Char × Nat) :=
  [("ENTER".data, 0x28), ("RETURN".data, 0x28),
   ("ESCAPE".data, 0x29), ("ESC".data, 0x29),
   ("BACKSPACE".data, 0x2a), ("BSPACE".data, 0x2a),
   ("TAB".data, 0x2b),
   ("SPACE".data, 0x2c),
   ("CAPSLOCK".data, 0x39),
   ("F1".data, 0x3a), ("F2".data, 0x3b), ("F3".data, 0x3c), ("F4".data, 0x3d),
   ("F5".data, 0x3e), ("F6".data, 0x3f), ("F7".data, 0x40), ("F8".data, 0x41),
   ("F9".data, 0x42), ("F10".data, 0x43), ("F11".data, 0x44), ("F12".data, 0x45),
   ("PRINTSCREEN".data, 0x46),
   ("SCROLLLOCK".data, 0x47),
   ("PAUSE".data, 0x48), ("BREAK".data, 0x48),
   ("INSERT".data, 0x49),
   ("HOME".data, 0x4a),
   ("PAGEUP".data, 0x4b),
   ("DELETE".data, 0x4c), ("DEL".data, 0x4c),
   ("END".data, 0x4d),
   ("PAGEDOWN".data, 0x4e),
   ("RIGHT".data, 0x4f), ("RIGHTARROW".data, 0x4f),
   ("LEFT".data, 0x50), ("LEFTARROW".data, 0x50),
   ("DOWN".data, 0x51), ("DOWNARROW".data, 0x51),
   ("UP".data, 0x52), ("UPARROW".data, 0x52),
   ("NUMLOCK".data, 0x53),
   ("APP".data, 0x65), ("MENU".data, 0x65)]

def MOD_NONE : Nat := 0x00

def MOD_CTRL : Nat := 0x01

def MOD_SHIFT : Nat := 0x02

def MOD_ALT : Nat := 0x04

def MOD_GUI : Nat := 0x08

/-- The `while ms > 0` loop of `encode_delay`, with an explicit iteration
bound (each iteration subtracts at least 1 from `ms`, so `ms.toNat` bounds
the number of iterations). -/
def encDelayLoop : Nat → Int → List Nat
  | 0, _ => []
  | fuel + 1, ms =>
    if 0 < ms then [0x00, (min ms 255).toNat] ++ encDelayLoop fuel (ms - min ms 255)
    else []

/-- Model of `encode_delay(ms)`: chunked delay instructions, `[0x00, chunk]` each. -/
def encode_delay (ms : Int) : List Nat := encDelayLoop ms.toNat ms

/-- Diagnostics printed by the compiler; payload-irrelevant text is reduced
to the data it interpolates. -/
inductive Diag where
  | unknownChar : Char → Diag
  | unknownKey : List Char → Diag
  | unknownCommand : Nat → List Char → Diag
  | lineError : Nat → Diag
  deriving DecidableEq

/-- Model of `encode_char(char)`: bytes plus the warning it may print. -/
def encode_char (c : Char) : List Nat × List Diag :=
  match assoc [c] KEYCODES with
  | some k => ([k, MOD_NONE], [])
  | none =>
    match assoc [c] SHIFT_CHARS with
    | some k => ([k, MOD_SHIFT], [])
    | none => ([], [Diag.unknownChar c])

/-- Model of `encode_string(text)`: concatenation of `encode_char` over the text. -/
def encode_string : List Char → List Nat × List Diag
  | [] => ([], [])
  | c :: rest =>
    ((encode_char c).1 ++ (encode_string rest).1,
     (encode_char c).2 ++ (encode_string rest).2)

/-- Model of `get_key_code(key_name)`: named keys on the upper-cased token, then
unshifted characters on the lower-cased token, then shifted characters
verbatim; `none` when nothing matches. -/
def get_key_code (key_name : List Char) : Option Nat :=
  match assoc (pyUpper key_name) SPECIAL_KEYS with
  | some v => some v
  | none =>
    match assoc (pyLower key_name) KEYCODES with
    | some v => some v
    | none => assoc key_name SHIFT_CHARS

/-- The token loop of `parse_modifier_combo`: returns the accumulated
modifier mask, the resolved keycode (the Python local `keycode`, which is
reset to `None` by a failed lookup), and the warnings printed.  The branch
for shift mirrors the source's `part_upper in ('SHIFT')`, which in Python
is a substring test against the string "SHIFT", not tuple membership. -/
def pmcLoop : List (List Char) → Nat → Option Nat → Nat × Option Nat × List Diag
  | [], m, k => (m, k, [])
  | p :: rest, m, k =>
    if pyUpper p = "CTRL".data ∨ pyUpper p = "CONTROL".data then
      pmcLoop rest (m ||| MOD_CTRL) k
    else if pySubstr (pyUpper p) ("SHIFT".data) then
      pmcLoop rest (m ||| MOD_SHIFT) k
    else if pyUpper p = "ALT".data ∨ pyUpper p = "OPTION".data then
      pmcLoop rest (m ||| MOD_ALT) k
    else if pyUpper p = "GUI".data ∨ pyUpper p = "WINDOWS".data ∨
        pyUpper p = "COMMAND".data ∨ pyUpper p = "CMD".data ∨
        pyUpper p = "META".data then
      pmcLoop rest (m ||| MOD_GUI) k
    else
      match get_key_code p with
      | some kc => pmcLoop rest m (some kc)
      | none =>
        ((pmcLoop rest m none).1, (pmcLoop rest m none).2.1,
         Diag.unknownKey p :: (pmcLoop rest m none).2.2)

/-- Model of `parse_modifier_combo(line)`: bytes plus warnings. -/
def parse_modifier_combo (line : List Char) : List Nat × List Diag :=
  match (pmcLoop (pySplit line) MOD_NONE none).2.1 with
  | some kc => ([kc, (pmcLoop (pySplit line) MOD_NONE none).1],
      (pmcLoop (pySplit line) MOD_NONE none).2.2)
  | none =>
    if (pmcLoop (pySplit line) MOD_NONE none).1 ≠ MOD_NONE then
      ([0x00, (pmcLoop (pySplit line) MOD_NONE none).1],
       (pmcLoop (pySplit line) MOD_NONE none).2.2)
    else ([], (pmcLoop (pySplit line) MOD_NONE none).2.2)

/-- Dispatcher state: the accumulated payload and the default delay. -/
structure CState where
  payload : List Nat
  defaultDelay : Int
  deriving DecidableEq

/-- The `DEFAULT_DELAY` branch: `default_delay = int(line.split()[1])`;
a missing or malformed argument raises, caught at line granularity. -/
def cmdDefaultDelay (st : CState) (n : Nat) (line : List Char) : CState × List Diag :=
  match pySplit line with
  | _ :: a :: _ =>
    match pyInt a with
    | some v => ({ st with defaultDelay := v }, [])
    | none => (st, [Diag.lineError n])
  | _ => (st, [Diag.lineError n])

/-- The `DELAY` branch: `payload.extend(encode_delay(int(line.split()[1])))`. -/
def cmdDelay (st : CState) (n : Nat) (line : List Char) : CState × List Diag :=
  match pySplit line with
  | _ :: a :: _ =>
    match pyInt a with
    | some v => ({ st with payload := st.payload ++ encode_delay v }, [])
    | none => (st, [Diag.lineError n])
  | _ => (st, [Diag.lineError n])

/-- The `REPEAT`/`REPLAY` branch: parse the count (default 1), and when the
payload holds at least 2 bytes append that many copies of its last 2 bytes. -/
def cmdRepeat (st : CState) (n : Nat) (line : List Char) : CState × List Diag :=
  match (match pySplit line with | _ :: a :: _ => pyInt a | _ => some 1) with
  | some count =>
    (if 2 ≤ st.payload.length then
      { st with payload := st.payload ++
          (List.replicate count.toNat (st.payload.drop (st.payload.length - 2))).flatten }
    else st, [])
  | none => (st, [Diag.lineError n])

/-- The modifier keywords tested by `any(line.upper().startswith(mod) ...)`. -/
def MOD_STARTS : List (List Char) :=
  ["CTRL".data, "CONTROL".data, "ALT".data, "SHIFT".data,
   "GUI".data, "WINDOWS".data, "COMMAND".data, "CMD".data]

/-- The body of the per-line `try` block: classify the (stripped) line and
apply its effect.  Branch order mirrors the source's `if`/`elif` chain. -/
def dispatch (st : CState) (n : Nat) (line : List Char) : CState × List Diag :=
  if pyStarts ("DEFAULT_DELAY".data) line || pyStarts ("DEFAULTDELAY".data) line then
    cmdDefaultDelay st n line
  else if pyStarts ("DELAY".data) line then
    cmdDelay st n line
  else if pyStarts ("STRING ".data) line then
    ({ st with payload := st.payload ++ (encode_string (line.drop 7)).1 },
     (encode_string (line.drop 7)).2)
  else if pyStarts ("STRINGLN ".data) line then
    ({ st with payload := st.payload ++ (encode_string (line.drop 9)).1 ++ [0x28, MOD_NONE] },
     (encode_string (line.drop 9)).2)
  else
    match assoc line SPECIAL_KEYS with
    | some code => ({ st with payload := st.payload ++ [code, MOD_NONE] }, [])
    | none =>
      if MOD_STARTS.any (fun m => pyStarts m (pyUpper line)) then
        (if (parse_modifier_combo line).1 = [] then st
         else { st with payload := st.payload ++ (parse_modifier_combo line).1 },
         (parse_modifier_combo line).2)
      else if pyStarts ("REPEAT".data) line || pyStarts ("REPLAY".data) line then
        cmdRepeat st n line
      else (st, [Diag.unknownCommand n line])

/-- Skipped lines: empty after strip, or `REM`/`//` comments. -/
def isSkip (line : List Char) : Bool :=
  line = [] || pyStarts ("REM".data) line || pyStarts ("//".data) line

/-- The default-delay insertion performed before each non-skipped line:
`if default_delay > 0 and payload: payload.extend(encode_delay(default_delay))`. -/
def prependDelay (st : CState) : CState :=
  if 0 < st.defaultDelay ∧ st.payload ≠ [] then
    { st with payload := st.payload ++ encode_delay st.defaultDelay }
  else st

/-- One iteration of the line loop of `compile_script` on raw line `raw`
with 1-based line number `n`. -/
def lineStep (st : CState) (n : Nat) (raw : List Char) : CState × List Diag :=
  if isSkip (pyStrip raw) then (st, [])
  else dispatch (prependDelay st) n (pyStrip raw)

/-- The line loop of `compile_script` from a given state and line number. -/
def runLines : CState → Nat → List (List Char) → CState × List Diag
  | st, _, [] => (st, [])
  | st, n, raw :: rest =>
    ((runLines (lineStep st n raw).1 (n + 1) rest).1,
     (lineStep st n raw).2 ++ (runLines (lineStep st n raw).1 (n + 1) rest).2)

/-- Model of `compile_script` on the list of raw lines of the input file: final state
(the payload is what the binary emitter writes) and all diagnostics. -/
def compileLines (ls : List (List Char)) : CState × List Diag :=
  runLines { payload := [], defaultDelay := 0 } 1 ls

/-! Helper lemmas about the delay loop. -/

lemma encDelayLoop_congr : ∀ (f g : Nat) (ms : Int), ms.toNat ≤ f → ms.toNat ≤ g →
    encDelayLoop f ms = encDelayLoop g ms := by
  intro f
  induction f with
  | zero =>
    intro g ms hf _
    have hms : ¬ 0 < ms := by omega
    cases g with
    | zero => rfl
    | succ g => simp [encDelayLoop, hms]
  | succ f ih =>
    intro g ms hf hg
    cases g with
    | zero =>
      have hms : ¬ 0 < ms := by omega
      simp [encDelayLoop, hms]
    | succ g =>
      by_cases hms : 0 < ms
      · have hc1 : (1 : Int) ≤ min ms 255 := le_min (by omega) (by omega)
        have hc2 : min ms 255 ≤ ms := min_le_left _ _
        have h1 : (ms - min ms 255).toNat ≤ f := by omega
        have h2 : (ms - min ms 255).toNat ≤ g := by omega
        simp only [encDelayLoop, if_pos hms]
        rw [ih g (ms - min ms 255) h1 h2]
      · simp [encDelayLoop, hms]

lemma encDelayLoop_eq_encode_delay (f : Nat) (ms : Int) (h : ms.toNat ≤ f) :
    encDelayLoop f ms = encode_delay ms :=
  encDelayLoop_congr f ms.toNat ms h le_rfl

lemma encode_delay_nonpos {ms : Int} (h : ms ≤ 0) : encode_delay ms = [] := by
  have h0 : ms.toNat = 0 := by omega
  rw [encode_delay, h0]
  rfl

/-! Helper lemmas about `pySplit` on a keyword followed by one token. -/

lemma pySplitAux_noWS : ∀ (t : List Char), (∀ c ∈ t, isPyWS c = false) →
    ∀ acc, pySplitAux t acc =
      if acc.reverse ++ t = [] then [] else [acc.reverse ++ t] := by
  intro t
  induction t with
  | nil =>
    intro _ acc
    by_cases hacc : acc = []
    · subst hacc; simp [pySplitAux]
    · simp [pySplitAux, hacc]
  | cons c rest ih =>
    intro h acc
    have hc : isPyWS c = false := h c (by simp)
    rw [pySplitAux, if_neg (by simp [hc]), ih (fun d hd => h d (by simp [hd])) (c :: acc)]
    simp

lemma pySplit_token (t : List Char) (h : ∀ c ∈ t, isPyWS c = false) (hne : t ≠ []) :
    pySplit t = [t] := by
  rw [pySplit, pySplitAux_noWS t h []]
  simp [hne]

lemma pySplitAux_keyword : ∀ (kw : List Char), (∀ c ∈ kw, isPyWS c = false) →
    ∀ (t acc : List Char),
      pySplitAux (kw ++ ' ' :: t) acc =
        if acc.reverse ++ kw = [] then pySplitAux t []
        else (acc.reverse ++ kw) :: pySplitAux t [] := by
  intro kw
  induction kw with
  | nil =>
    intro _ t acc
    by_cases hacc : acc = []
    · subst hacc; simp [pySplitAux, isPyWS]
    · simp [pySplitAux, isPyWS, hacc]
  | cons c rest ih =>
    intro h t acc
    have hc : isPyWS c = false := h c (by simp)
    rw [List.cons_append, pySplitAux, if_neg (by simp [hc]),
      ih (fun d hd => h d (by simp [hd])) t (c :: acc)]
    simp

lemma pySplit_kw_tok (kw t : List Char) (hkw : ∀ c ∈ kw, isPyWS c = false)
    (hkwne : kw ≠ []) (ht : ∀ c ∈ t, isPyWS c = false) (htne : t ≠ []) :
    pySplit (kw ++ ' ' :: t) = [kw, t] := by
  rw [pySplit, pySplitAux_keyword kw hkw t [], if_neg (by simpa using hkwne)]
  rw [show pySplitAux t [] = pySplit t from rfl, pySplit_token t ht htne]
  simp

/-! Branch-selection lemmas: when the (stripped) line has one of the
keyword shapes below, `dispatch` reduces to the corresponding branch.
All of them hold by definitional unfolding of the `if`/`elif` chain. -/

lemma lineStep_eq_dispatch (st : CState) (n : Nat) (raw line : List Char)
    (hline : pyStrip raw = line) (hskip : isSkip line = false) :
    lineStep st n raw = dispatch (prependDelay st) n line := by
  unfold lineStep
  rw [hline, hskip]
  simp

lemma dispatch_default_delay_tok (st : CState) (n : Nat) (t : List Char) :
    dispatch st n ("DEFAULT_DELAY ".data ++ t) =
      cmdDefaultDelay st n ("DEFAULT_DELAY ".data ++ t) := rfl

lemma dispatch_delay_tok (st : CState) (n : Nat) (t : List Char) :
    dispatch st n ("DELAY ".data ++ t) = cmdDelay st n ("DELAY ".data ++ t) := rfl

lemma drop7_string_kw (t : List Char) : ("STRING ".data ++ t).drop 7 = t := rfl

lemma dispatch_string_tok (st : CState) (n : Nat) (t : List Char) :
    dispatch st n ("STRING ".data ++ t) =
      ({ st with payload := st.payload ++ (encode_string t).1 }, (encode_string t).2) := by
  have h : dispatch st n ("STRING ".data ++ t) =
      ({ st with payload := st.payload ++ (encode_string (("STRING ".data ++ t).drop 7)).1 },
       (encode_string (("STRING ".data ++ t).drop 7)).2) := rfl
  rw [h, drop7_string_kw]

lemma dispatch_repeat_tok (st : CState) (n : Nat) (t : List Char) :
    dispatch st n ("REPEAT ".data ++ t) = cmdRepeat st n ("REPEAT ".data ++ t) := rfl

lemma dispatch_replay_tok (st : CState) (n : Nat) (t : List Char) :
    dispatch st n ("REPLAY ".data ++ t) = cmdRepeat st n ("REPLAY ".data ++ t) := rfl

lemma dispatch_repeat_bare (st : CState) (n : Nat) :
    dispatch st n ("REPEAT".data) = cmdRepeat st n ("REPEAT".data) := rfl

/-- Claim C1: the claim states that only the token `SHIFT` (case-insensitively)
sets the shift bit, every other token being resolved as a key name.  The code
instead tests `part_upper in ('SHIFT')`, a substring test: on the line
`CTRL S` the token `S` sets the shift bit and no key is resolved, so the
resolver returns `[0x00, 0x03]`, although `S` resolves to keycode `0x16`
and the claim predicts `[0x16, 0x01]`. -/
theorem c1_shift_alias_code_eval :
    (parse_modifier_combo ("CTRL S".data)).1 = [0x00, 0x03] ∧
    (parse_modifier_combo ("CTRL S".data)).1 ≠ [0x16, 0x01] ∧
    get_key_code ("S".data) = some 0x16 := by decide

/-- Claim C2, counterexample: from the state with payload `[0x04, 0x00]` and
default delay 100, the erroneous line `DELAY xyz` does not leave the
dispatcher state unchanged: the default-delay chunk `[0, 100]` appended
before the `try` block survives the caught exception. -/
theorem c2_error_line_counterexample :
    (lineStep { payload := [0x04, 0x00], defaultDelay := 100 } 3 ("DELAY xyz".data))
      = ({ payload := [0x04, 0x00, 0x00, 100], defaultDelay := 100 }, [Diag.lineError 3]) ∧
    (lineStep { payload := [0x04, 0x00], defaultDelay := 100 } 3 ("DELAY xyz".data)).1
      ≠ { payload := [0x04, 0x00], defaultDelay := 100 } := by decide

/-- Claim C3, counterexample: the dispatcher strips the whole raw line before
parsing, so the script line `STRING  a ` (extra leading space, one trailing
space) encodes the text ` a`, not ` a ` as the claim states: the trailing
space is lost. -/
theorem c3_string_trailing_space_counterexample :
    (compileLines [("STRING  a ".data)]).1.payload = [0x2c, 0x00, 0x04, 0x00] ∧
    (encode_string (" a ".data)).1 = [0x2c, 0x00, 0x04, 0x00, 0x2c, 0x00] ∧
    (compileLines [("STRING  a ".data)]).1.payload ≠ (encode_string (" a ".data)).1 := by
  decide

/-- Claim C6: `encode_delay` emits nothing for `ms ≤ 0`, and for `0 < ms`
emits the chunk `(0x00, min ms 255)` followed by the encoding of the
remainder; concretely `encode_delay 300 = [0,255,0,45]`,
`encode_delay 0 = []` and `encode_delay 255 = [0,255]`. -/
theorem c6_encode_delay_spec :
    (∀ ms : Int, ms ≤ 0 → encode_delay ms = []) ∧
    (∀ ms : Int, 0 < ms →
      encode_delay ms = [0x00, (min ms 255).toNat] ++ encode_delay (ms - min ms 255)) ∧
    encode_delay 300 = [0, 255, 0, 45] ∧ encode_delay 0 = [] ∧
    encode_delay 255 = [0, 255] := by
  refine ⟨fun ms h => encode_delay_nonpos h, fun ms h => ?_, by decide, by decide, by decide⟩
  have hc1 : (1 : Int) ≤ min ms 255 := le_min (by omega) (by omega)
  have hc2 : min ms 255 ≤ ms := min_le_left _ _
  have hk : ∃ k, ms.toNat = k + 1 := ⟨ms.toNat - 1, by omega⟩
  obtain ⟨k, hk⟩ := hk
  rw [encode_delay, hk]
  simp only [encDelayLoop, if_pos h]
  rw [encDelayLoop_eq_encode_delay k (ms - min ms 255) (by omega)]

/-- Witness for C6 at `ms = -7` and `ms = 300`. -/
theorem c6_encode_delay_spec_witness :
    encode_delay (-7) = [] ∧
    encode_delay 300 = [0x00, ((min (300:Int) 255).toNat)] ++ encode_delay (300 - min 300 255) :=
  ⟨c6_encode_delay_spec.1 (-7) (by decide), c6_encode_delay_spec.2.1 300 (by decide)⟩

/-- Claim C9: the delay loop is well-founded — for `ms ≤ 0` it emits nothing,
for `0 < ms` each iteration strictly decreases the measure `ms.toNat`, and
`ms.toNat` units of fuel are enough for the loop to reach its fixed point
(any larger bound yields the same result). -/
theorem c9_encode_delay_terminates :
    (∀ ms : Int, ms ≤ 0 → encode_delay ms = []) ∧
    (∀ ms : Int, 0 < ms → (ms - min ms 255).toNat < ms.toNat) ∧
    (∀ (fuel : Nat) (ms : Int), ms.toNat ≤ fuel → encDelayLoop fuel ms = encode_delay ms) := by
  refine ⟨fun ms h => encode_delay_nonpos h, fun ms h => ?_,
    fun fuel ms h => encDelayLoop_eq_encode_delay fuel ms h⟩
  have hc1 : (1 : Int) ≤ min ms 255 := le_min (by omega) (by omega)
  have hc2 : min ms 255 ≤ ms := min_le_left _ _
  omega

/-- Witness for C9 at `ms = -2`, `ms = 300`, and fuel 9 for `ms = 7`. -/
theorem c9_encode_delay_terminates_witness :
    encode_delay (-2) = [] ∧
    (((300 : Int) - min 300 255).toNat < (300 : Int).toNat) ∧
    encDelayLoop 9 7 = encode_delay 7 :=
  ⟨c9_encode_delay_terminates.1 (-2) (by decide),
   c9_encode_delay_terminates.2.1 300 (by decide),
   c9_encode_delay_terminates.2.2 9 7 (by decide)⟩

/-- Claim C7: key-name lookup tries the upper-cased token against named keys
first (so named-key lookup is case-insensitive), then the lower-cased token
against unshifted characters, then the verbatim token against shifted
characters, and yields `none` (not an exception) when nothing matches;
concretely `enter`, `ENTER` and `Enter` all resolve to `0x28`. -/
theorem c7_get_key_code_order :
    (∀ (s : List Char) (v : Nat), assoc (pyUpper s) SPECIAL_KEYS = some v →
        get_key_code s = some v) ∧
    (∀ (s : List Char) (v : Nat), assoc (pyUpper s) SPECIAL_KEYS = none →
        assoc (pyLower s) KEYCODES = some v → get_key_code s = some v) ∧
    (∀ (s : List Char), assoc (pyUpper s) SPECIAL_KEYS = none →
        assoc (pyLower s) KEYCODES = none → get_key_code s = assoc s SHIFT_CHARS) ∧
    (get_key_code ("enter".data) = some 0x28 ∧ get_key_code ("ENTER".data) = some 0x28 ∧
      get_key_code ("Enter".data) = some 0x28) ∧
    get_key_code ("NOPE".data) = none := by
  refine ⟨?_, ?_, ?_, by decide, by decide⟩
  · intro s v h
    rw [get_key_code, h]
  · intro s v h h'
    rw [get_key_code, h, h']
  · intro s h h'
    rw [get_key_code, h, h']

/-- Witness for C7: the three lookup stages at `ENTER`, `a` and `?`. -/
theorem c7_get_key_code_order_witness :
    get_key_code ("ENTER".data) = some 0x28 ∧
    get_key_code ("a".data) = some 0x04 ∧
    get_key_code ("?".data) = some 0x38 :=
  ⟨c7_get_key_code_order.1 ("ENTER".data) 0x28 (by decide),
   c7_get_key_code_order.2.1 ("a".data) 0x04 (by decide) (by decide),
   by rw [c7_get_key_code_order.2.2.1 ("?".data) (by decide) (by decide)]; decide⟩

/-- Claim C2, amended: a line whose processing raises a recoverable error
(malformed numeric argument to `DELAY`/`DEFAULT_DELAY`/`REPEAT`, or an
unrecognized command) contributes no bytes of its own and leaves the default
delay unchanged — but the state after the line is `prependDelay` of the state
before it, not that state itself: when the default delay is positive and the
payload non-empty, the default-delay chunk appended before the line's command
survives the error. -/
theorem c2_error_line_amended (st : CState) (n : Nat) (raw : List Char) :
    (∀ t : List Char, pyStrip raw = "DELAY ".data ++ t → t ≠ [] →
      (∀ c ∈ t, isPyWS c = false) → pyInt t = none →
      lineStep st n raw = (prependDelay st, [Diag.lineError n])) ∧
    (∀ t : List Char, pyStrip raw = "DEFAULT_DELAY ".data ++ t → t ≠ [] →
      (∀ c ∈ t, isPyWS c = false) → pyInt t = none →
      lineStep st n raw = (prependDelay st, [Diag.lineError n])) ∧
    (∀ t : List Char, pyStrip raw = "REPEAT ".data ++ t → t ≠ [] →
      (∀ c ∈ t, isPyWS c = false) → pyInt t = none →
      lineStep st n raw = (prependDelay st, [Diag.lineError n])) ∧
    (pyStrip raw = "FROBNICATE".data →
      lineStep st n raw = (prependDelay st, [Diag.unknownCommand n ("FROBNICATE".data)])) := by
  refine ⟨?_, ?_, ?_, ?_⟩
  · intro t hline htne htws hint
    have hs : pySplit ('D' :: 'E' :: 'L' :: 'A' :: 'Y' :: ' ' :: t) = ["DELAY".data, t] :=
      pySplit_kw_tok ("DELAY".data) t (by decide) (by decide) htws htne
    rw [lineStep_eq_dispatch st n raw _ hline rfl, dispatch_delay_tok]
    simp [cmdDelay, hs, hint]
  · intro t hline htne htws hint
    have hs : pySplit ('D' :: 'E' :: 'F' :: 'A' :: 'U' :: 'L' :: 'T' :: '_' :: 'D' :: 'E' :: 'L' :: 'A' :: 'Y' :: ' ' :: t) = ["DEFAULT_DELAY".data, t] :=
      pySplit_kw_tok ("DEFAULT_DELAY".data) t (by decide) (by decide) htws htne
    rw [lineStep_eq_dispatch st n raw _ hline rfl, dispatch_default_delay_tok]
    simp [cmdDefaultDelay, hs, hint]
  · intro t hline htne htws hint
    have hs : pySplit ('R' :: 'E' :: 'P' :: 'E' :: 'A' :: 'T' :: ' ' :: t) = ["REPEAT".data, t] :=
      pySplit_kw_tok ("REPEAT".data) t (by decide) (by decide) htws htne
    rw [lineStep_eq_dispatch st n raw _ hline rfl, dispatch_repeat_tok]
    simp [cmdRepeat, hs, hint]
  · intro hline
    rw [lineStep_eq_dispatch st n raw _ hline rfl]
    rfl

/-- Witness for C2 (amended) at payload `[1,2]`, default delay 50, line
`DELAY 5x`: the default-delay chunk `[0,50]` stays in the payload. -/
theorem c2_error_line_amended_witness :
    lineStep { payload := [1, 2], defaultDelay := 50 } 7 ("DELAY 5x".data) =
      (prependDelay { payload := [1, 2], defaultDelay := 50 }, [Diag.lineError 7]) ∧
    prependDelay { payload := [1, 2], defaultDelay := 50 }
      = { payload := [1, 2, 0, 50], defaultDelay := 50 } :=
  ⟨(c2_error_line_amended { payload := [1, 2], defaultDelay := 50 } 7 ("DELAY 5x".data)).1
      ("5x".data) (by decide) (by decide) (by decide) (by decide),
   by decide⟩

/-- Claim C3, amended: for a stripped line of the form `STRING <text>`, the
dispatcher appends `encodeString(text)` where `text` is everything after the
first 7 characters of the *stripped* line — leading spaces inside the text
survive, but trailing whitespace of the raw line has already been removed by
the strip, so `STRING  a ` encodes ` a`, not ` a `. -/
theorem c3_string_text_amended :
    (∀ (st : CState) (n : Nat) (raw t : List Char),
      pyStrip raw = "STRING ".data ++ t →
      lineStep st n raw =
        ({ prependDelay st with
            payload := (prependDelay st).payload ++ (encode_string t).1 },
         (encode_string t).2)) ∧
    (compileLines [("STRING  a ".data)]).1.payload = (encode_string (" a".data)).1 := by
  constructor
  · intro st n raw t hline
    rw [lineStep_eq_dispatch st n raw _ hline rfl, dispatch_string_tok]
  · decide

/-- Witness for C3 (amended) on the raw line `STRING  a `. -/
theorem c3_string_text_amended_witness :
    lineStep { payload := [], defaultDelay := 0 } 1 ("STRING  a ".data) =
      ({ prependDelay { payload := [], defaultDelay := 0 } with
          payload := (prependDelay { payload := [], defaultDelay := 0 }).payload
            ++ (encode_string (" a".data)).1 },
       (encode_string (" a".data)).2) :=
  c3_string_text_amended.1 { payload := [], defaultDelay := 0 } 1 ("STRING  a ".data)
    (" a".data) (by decide)

/-- Claim C4: for `k ≥ 0` and a payload holding at least one instruction,
the `REPEAT k` / `REPLAY k` command appends exactly `k` further copies of the
last 2 bytes of the payload, verbatim; `k` defaults to 1 when omitted; and
`STRING A` followed by `REPEAT 3` yields four occurrences of
`encode_char 'A'` in total. -/
theorem c4_repeat_appends_copies :
    (∀ (st : CState) (n : Nat) (t : List Char) (k : Int),
      (∀ c ∈ t, isPyWS c = false) → t ≠ [] → pyInt t = some k → 0 ≤ k →
      2 ≤ st.payload.length →
      dispatch st n ("REPEAT ".data ++ t) =
        ({ st with payload := st.payload ++
            (List.replicate k.toNat (st.payload.drop (st.payload.length - 2))).flatten }, [])) ∧
    (∀ (st : CState) (n : Nat) (t : List Char) (k : Int),
      (∀ c ∈ t, isPyWS c = false) → t ≠ [] → pyInt t = some k → 0 ≤ k →
      2 ≤ st.payload.length →
      dispatch st n ("REPLAY ".data ++ t) =
        ({ st with payload := st.payload ++
            (List.replicate k.toNat (st.payload.drop (st.payload.length - 2))).flatten }, [])) ∧
    (∀ (st : CState) (n : Nat), 2 ≤ st.payload.length →
      dispatch st n ("REPEAT".data) =
        ({ st with payload := st.payload ++ st.payload.drop (st.payload.length - 2) }, [])) ∧
    (compileLines ["STRING A".data, "REPEAT 3".data]).1.payload =
      (encode_char 'A').1 ++ (encode_char 'A').1 ++ (encode_char 'A').1 ++ (encode_char 'A').1 := by
  refine ⟨?_, ?_, ?_, by decide⟩
  · intro st n t k htws htne hk _ hlen
    have hs : pySplit ('R' :: 'E' :: 'P' :: 'E' :: 'A' :: 'T' :: ' ' :: t) = ["REPEAT".data, t] :=
      pySplit_kw_tok ("REPEAT".data) t (by decide) (by decide) htws htne
    rw [dispatch_repeat_tok]
    simp [cmdRepeat, hs, hk, hlen]
  · intro st n t k htws htne hk _ hlen
    have hs : pySplit ('R' :: 'E' :: 'P' :: 'L' :: 'A' :: 'Y' :: ' ' :: t) = ["REPLAY".data, t] :=
      pySplit_kw_tok ("REPLAY".data) t (by decide) (by decide) htws htne
    rw [dispatch_replay_tok]
    simp [cmdRepeat, hs, hk, hlen]
  · intro st n hlen
    have hs : pySplit ("REPEAT".data) = ["REPEAT".data] := by decide
    rw [dispatch_repeat_bare]
    simp [cmdRepeat, hs, hlen]

/-- Witness for C4: `REPEAT 2` on payload `[4,0,5,0]` appends two copies of
`[5,0]`, and `REPEAT` with the count omitted appends one. -/
theorem c4_repeat_appends_copies_witness :
    dispatch { payload := [4, 0, 5, 0], defaultDelay := 0 } 1 ("REPEAT 2".data) =
      ({ payload := [4, 0, 5, 0, 5, 0, 5, 0], defaultDelay := 0 }, []) ∧
    dispatch { payload := [4, 0, 5, 0], defaultDelay := 0 } 1 ("REPEAT".data) =
      ({ payload := [4, 0, 5, 0, 5, 0], defaultDelay := 0 }, []) :=
  ⟨c4_repeat_appends_copies.1 { payload := [4, 0, 5, 0], defaultDelay := 0 } 1
      ("2".data) 2 (by decide) (by decide) (by decide) (by decide) (by decide),
   c4_repeat_appends_copies.2.2.1 { payload := [4, 0, 5, 0], defaultDelay := 0 } 1
      (by decide)⟩

/-- Claim C5: for any non-skipped line, the dispatcher prepends
`encode_delay defaultDelay` exactly when the payload already holds at least
one instruction — never before the first emitted instruction; concretely,
`DEFAULT_DELAY 100` followed by two `STRING` lines inserts exactly one
`[0,100]` pair between the two strings and none before the first. -/
theorem c5_default_delay_between_commands :
    (∀ (st : CState) (n : Nat) (raw : List Char), isSkip (pyStrip raw) = false →
      st.payload = [] → lineStep st n raw = dispatch st n (pyStrip raw)) ∧
    (∀ (st : CState) (n : Nat) (raw : List Char), isSkip (pyStrip raw) = false →
      0 < st.defaultDelay → st.payload ≠ [] →
      lineStep st n raw =
        dispatch { st with payload := st.payload ++ encode_delay st.defaultDelay } n
          (pyStrip raw)) ∧
    (compileLines ["DEFAULT_DELAY 100".data, "STRING ab".data, "STRING c".data]).1.payload =
      (encode_string ("ab".data)).1 ++ [0x00, 100] ++ (encode_string ("c".data)).1 := by
  refine ⟨?_, ?_, by decide⟩
  · intro st n raw hskip hpay
    rw [lineStep_eq_dispatch st n raw _ rfl hskip]
    simp [prependDelay, hpay]
  · intro st n raw hskip hdd hpay
    rw [lineStep_eq_dispatch st n raw _ rfl hskip]
    simp [prependDelay, hdd, hpay]

/-- Witness for C5: with payload `[4,0]` and default delay 100, the line
`STRING c` is processed from the payload extended with `[0,100]`; with an
empty payload it is processed from the state unchanged. -/
theorem c5_default_delay_between_commands_witness :
    lineStep { payload := [4, 0], defaultDelay := 100 } 3 ("STRING c".data) =
      dispatch { payload := ([4, 0] : List Nat) ++ encode_delay 100, defaultDelay := 100 } 3
        (pyStrip ("STRING c".data)) ∧
    lineStep { payload := [], defaultDelay := 100 } 2 ("STRING c".data) =
      dispatch { payload := [], defaultDelay := 100 } 2 (pyStrip ("STRING c".data)) :=
  ⟨c5_default_delay_between_commands.2.1 { payload := [4, 0], defaultDelay := 100 } 3
      ("STRING c".data) (by decide) (by decide) (by decide),
   c5_default_delay_between_commands.1 { payload := [], defaultDelay := 100 } 2
      ("STRING c".data) (by decide) rfl⟩

/-- Claim C10: a `REPEAT`/`REPLAY` line with a well-formed count processed
while the payload holds fewer than 2 bytes (hence, the payload length being
always even, an empty payload) is a silent no-op: state unchanged and no
diagnostic. -/
theorem c10_repeat_short_payload_noop :
    (∀ (st : CState) (n : Nat) (raw t : List Char) (k : Int),
      pyStrip raw = "REPEAT ".data ++ t → (∀ c ∈ t, isPyWS c = false) → t ≠ [] →
      pyInt t = some k → st.payload.length < 2 → st.payload.length % 2 = 0 →
      lineStep st n raw = (st, [])) ∧
    (∀ (st : CState) (n : Nat) (raw t : List Char) (k : Int),
      pyStrip raw = "REPLAY ".data ++ t → (∀ c ∈ t, isPyWS c = false) → t ≠ [] →
      pyInt t = some k → st.payload.length < 2 → st.payload.length % 2 = 0 →
      lineStep st n raw = (st, [])) ∧
    (∀ (st : CState) (n : Nat) (raw : List Char),
      pyStrip raw = "REPEAT".data → st.payload.length < 2 → st.payload.length % 2 = 0 →
      lineStep st n raw = (st, [])) := by
  refine ⟨?_, ?_, ?_⟩
  · intro st n raw t k hline htws htne hk hlen heven
    have hp : st.payload = [] := List.length_eq_zero.mp (by omega)
    have hs : pySplit ('R' :: 'E' :: 'P' :: 'E' :: 'A' :: 'T' :: ' ' :: t) = ["REPEAT".data, t] :=
      pySplit_kw_tok ("REPEAT".data) t (by decide) (by decide) htws htne
    have hpre : prependDelay st = st := by simp [prependDelay, hp]
    rw [lineStep_eq_dispatch st n raw _ hline rfl, hpre, dispatch_repeat_tok]
    simp [cmdRepeat, hs, hk, hp]
  · intro st n raw t k hline htws htne hk hlen heven
    have hp : st.payload = [] := List.length_eq_zero.mp (by omega)
    have hs : pySplit ('R' :: 'E' :: 'P' :: 'L' :: 'A' :: 'Y' :: ' ' :: t) = ["REPLAY".data, t] :=
      pySplit_kw_tok ("REPLAY".data) t (by decide) (by decide) htws htne
    have hpre : prependDelay st = st := by simp [prependDelay, hp]
    rw [lineStep_eq_dispatch st n raw _ hline rfl, hpre, dispatch_replay_tok]
    simp [cmdRepeat, hs, hk, hp]
  · intro st n raw hline hlen heven
    have hp : st.payload = [] := List.length_eq_zero.mp (by omega)
    have hs : pySplit ("REPEAT".data) = ["REPEAT".data] := by decide
    have hpre : prependDelay st = st := by simp [prependDelay, hp]
    rw [lineStep_eq_dispatch st n raw _ hline rfl, hpre, dispatch_repeat_bare]
    simp [cmdRepeat, hs, hp]

/-- Witness for C10: `REPEAT 4` on an empty payload (default delay 5 set)
changes nothing and emits nothing. -/
theorem c10_repeat_short_payload_noop_witness :
    lineStep { payload := [], defaultDelay := 5 } 2 ("REPEAT 4".data) =
      ({ payload := [], defaultDelay := 5 }, []) :=
  c10_repeat_short_payload_noop.1 { payload := [], defaultDelay := 5 } 2
    ("REPEAT 4".data) ("4".data) 4 (by decide) (by decide) (by decide) (by decide)
    (by decide) (by decide)

/-! Parity lemmas: every branch of the dispatcher appends a whole number of
2-byte instructions, so the payload length stays even. -/

lemma encDelayLoop_length_even (f : Nat) : ∀ ms : Int, (encDelayLoop f ms).length % 2 = 0 := by
  induction f with
  | zero => intro ms; rfl
  | succ f ih =>
    intro ms
    by_cases h : 0 < ms
    · have := ih (ms - min ms 255)
      simp only [encDelayLoop, if_pos h, List.length_append, List.length_cons, List.length_nil]
      omega
    · simp [encDelayLoop, h]

lemma encode_delay_length_even (ms : Int) : (encode_delay ms).length % 2 = 0 :=
  encDelayLoop_length_even ms.toNat ms

lemma encode_char_length_even (c : Char) : (encode_char c).1.length % 2 = 0 := by
  rw [encode_char]
  split
  · simp
  · split
    · simp
    · simp

lemma encode_string_length_even : ∀ t : List Char, (encode_string t).1.length % 2 = 0 := by
  intro t
  induction t with
  | nil => rfl
  | cons c rest ih =>
    have h1 := encode_char_length_even c
    simp only [encode_string, List.length_append]
    omega

lemma parse_modifier_combo_length_even (line : List Char) :
    (parse_modifier_combo line).1.length % 2 = 0 := by
  rw [parse_modifier_combo]
  split
  · simp
  · split
    · simp
    · simp

lemma flatten_replicate_length (k : Nat) (l : List Nat) :
    ((List.replicate k l).flatten).length = k * l.length := by
  induction k with
  | zero => simp
  | succ k ih =>
    simp only [List.replicate_succ, List.flatten_cons, List.length_append, ih, Nat.succ_mul]
    omega

lemma cmdDefaultDelay_even (st : CState) (n : Nat) (line : List Char)
    (h : st.payload.length % 2 = 0) :
    (cmdDefaultDelay st n line).1.payload.length % 2 = 0 := by
  rw [cmdDefaultDelay]
  split
  · split
    · exact h
    · exact h
  · exact h

lemma cmdDelay_even (st : CState) (n : Nat) (line : List Char)
    (h : st.payload.length % 2 = 0) :
    (cmdDelay st n line).1.payload.length % 2 = 0 := by
  rw [cmdDelay]
  split
  · split
    · rename_i v hv
      show (st.payload ++ encode_delay v).length % 2 = 0
      have := encode_delay_length_even v
      simp only [List.length_append]
      omega
    · exact h
  · exact h

lemma cmdRepeat_even (st : CState) (n : Nat) (line : List Char)
    (h : st.payload.length % 2 = 0) :
    (cmdRepeat st n line).1.payload.length % 2 = 0 := by
  rw [cmdRepeat]
  split
  · rename_i count _
    split
    · rename_i hlen
      show (st.payload ++
          (List.replicate count.toNat (st.payload.drop (st.payload.length - 2))).flatten).length
          % 2 = 0
      rw [List.length_append, flatten_replicate_length, List.length_drop]
      have h2 : st.payload.length - (st.payload.length - 2) = 2 := by omega
      rw [h2]
      omega
    · exact h
  · exact h

lemma dispatch_even (st : CState) (n : Nat) (line : List Char)
    (h : st.payload.length % 2 = 0) :
    (dispatch st n line).1.payload.length % 2 = 0 := by
  rw [dispatch]
  split
  · exact cmdDefaultDelay_even st n line h
  · split
    · exact cmdDelay_even st n line h
    · split
      · show (st.payload ++ (encode_string (line.drop 7)).1).length % 2 = 0
        have := encode_string_length_even (line.drop 7)
        simp only [List.length_append]
        omega
      · split
        · show (st.payload ++ (encode_string (line.drop 9)).1 ++ [0x28, MOD_NONE]).length % 2 = 0
          have := encode_string_length_even (line.drop 9)
          simp only [List.length_append, List.length_cons, List.length_nil]
          omega
        · split
          · next code _ =>
            show (st.payload ++ [code, MOD_NONE]).length % 2 = 0
            simp only [List.length_append, List.length_cons, List.length_nil]
            omega
          · split
            · split
              · exact h
              · show (st.payload ++ (parse_modifier_combo line).1).length % 2 = 0
                have := parse_modifier_combo_length_even line
                simp only [List.length_append]
                omega
            · split
              · exact cmdRepeat_even st n line h
              · exact h

lemma prependDelay_even (st : CState) (h : st.payload.length % 2 = 0) :
    (prependDelay st).payload.length % 2 = 0 := by
  rw [prependDelay]
  split
  · show (st.payload ++ encode_delay st.defaultDelay).length % 2 = 0
    have := encode_delay_length_even st.defaultDelay
    simp only [List.length_append]
    omega
  · exact h

lemma lineStep_even (st : CState) (n : Nat) (raw : List Char)
    (h : st.payload.length % 2 = 0) :
    (lineStep st n raw).1.payload.length % 2 = 0 := by
  rw [lineStep]
  split
  · exact h
  · exact dispatch_even (prependDelay st) n (pyStrip raw) (prependDelay_even st h)

lemma runLines_even : ∀ (ls : List (List Char)) (st : CState) (n : Nat),
    st.payload.length % 2 = 0 → (runLines st n ls).1.payload.length % 2 = 0 := by
  intro ls
  induction ls with
  | nil => intro st n h; exact h
  | cons raw rest ih =>
    intro st n h
    exact ih (lineStep st n raw).1 (n + 1) (lineStep_even st n raw h)

/-- Claim C8: the payload length is always even — after compiling any script
from the empty payload, and more generally after the line loop processes any
list of lines from any state whose payload length is even (so every prefix
of every script, processed from the initial state, has an even payload). -/
theorem c8_payload_length_even :
    (∀ ls : List (List Char), (compileLines ls).1.payload.length % 2 = 0) ∧
    (∀ (st : CState) (n : Nat) (ls : List (List Char)),
      st.payload.length % 2 = 0 → (runLines st n ls).1.payload.length % 2 = 0) :=
  ⟨fun ls => runLines_even ls { payload := [], defaultDelay := 0 } 1 rfl,
   fun st n ls h => runLines_even ls st n h⟩

/-- Witness for C8 on a concrete script and a concrete mid-compilation state. -/
theorem c8_payload_length_even_witness :
    (compileLines ["STRING hi".data, "DELAY 300".data,
      "CTRL ALT DELETE".data]).1.payload.length % 2 = 0 ∧
    (runLines { payload := [0, 50], defaultDelay := 7 } 4
      ["REPEAT 2".data]).1.payload.length % 2 = 0 :=
  ⟨c8_payload_length_even.1 ["STRING hi".data, "DELAY 300".data, "CTRL ALT DELETE".data],
   c8_payload_length_even.2 { payload := [0, 50], defaultDelay := 7 } 4
     ["REPEAT 2".data] (by decide)⟩
